import Mathlib

/-!
Shallow embedding of `src/Chess_main.py` (class `ChessGame`): the coordinate
mapping between pixels and board squares, the selection state machine
(`handle_human_move`), the outcome classifier (`get_result`) and the frame
loop (`play`).  The python-chess board and the Stockfish engine are external
collaborators; they are modelled as an abstract `RulesEngine` record over an
abstract board type and an abstract move-choosing function.  Python integers
are `Int`; Python's floor division `//` is `Int.fdiv` and `%` is `Int.fmod`.
-/

/-- A piece as python-chess exposes it to `Chess_main.py`: a piece type
(`chess.PAWN = 1` … `chess.KING = 6`) and a color (`chess.WHITE = true`,
`chess.BLACK = false`). -/
structure Piece where
  pieceType : Int
  color : Bool
  deriving DecidableEq, Repr

/-- The Rules Engine collaborator: the python-chess `Board` operations that
`Chess_main.py` calls, over an abstract board type.  `legal_moves b` is the
list of (from-square, to-square) pairs legal for the side to move on `b`;
`turn b` is the side to move (`true` = White); `push b m` is the board after
playing `m`. -/
structure RulesEngine (Board : Type) where
  piece_at : Board → Int → Option Piece
  legal_moves : Board → List (Int × Int)
  push : Board → Int × Int → Board
  turn : Board → Bool
  is_game_over : Board → Bool
  is_checkmate : Board → Bool
  is_stalemate : Board → Bool
  is_insufficient_material : Board → Bool
  is_seventyfive_moves : Board → Bool
  is_fivefold_repetition : Board → Bool
  can_claim_draw : Board → Bool

/-- `self.human_player = chess.WHITE` (Chess_main.py line 16). -/
def human_player : Bool := true

/-- `self.computer_player = chess.BLACK` (Chess_main.py line 17). -/
def computer_player : Bool := false

/-- `self.board_size = 640` (Chess_main.py line 19). -/
def board_size : Int := 640

/-- `self.square_size = self.board_size // 8` (Chess_main.py line 20). -/
def square_size : Int := Int.fdiv board_size 8

/-- python-chess `chess.square(file_index, rank_index) = rank_index * 8 + file_index`. -/
def chess_square (file rank : Int) : Int := rank * 8 + file

/-- The pixel-to-square mapping of `handle_human_move` (lines 171-173 and
181-183): `col = pos[0] // square_size`, `row = pos[1] // square_size`,
`square = chess.square(col, 7 - row)`. -/
def squareFromPixel (pos : Int × Int) : Int :=
  let col := Int.fdiv pos.1 square_size
  let row := Int.fdiv pos.2 square_size
  chess_square col (7 - row)

/-- The square-to-pixel-origin mapping of `draw_board` (lines 52-55):
`row, col = 7 - square // 8, square % 8` and the square's rectangle is drawn
at `(col * square_size, row * square_size)`. -/
def pixelOriginOfSquare (s : Int) : Int × Int :=
  let row := 7 - Int.fdiv s 8
  let col := Int.fmod s 8
  (col * square_size, row * square_size)

/-- The mutable state of `ChessGame` that the interaction logic touches:
`self.board`, `self.selected_piece`, `self.selected_square`
(lines 11, 22, 23). -/
structure GameState (Board : Type) where
  board : Board
  selected_piece : Option Piece
  selected_square : Option Int
  deriving DecidableEq

/-- The pygame events `play` and `handle_human_move` distinguish:
`MOUSEBUTTONDOWN` and `MOUSEBUTTONUP` (the handler reads the pointer
position with `pygame.mouse.get_pos()`, carried here as the event payload),
`QUIT`, and anything else. -/
inductive Event where
  | mouseDown (pos : Int × Int)
  | mouseUp (pos : Int × Int)
  | quit
  | other

/-- `handle_human_move` (lines 131-188).  On `MOUSEBUTTONDOWN`: compute the
square under the pointer; if a piece of the human's color stands there, make
it the selection (unconditionally — there is no check that no piece is
already selected).  On `MOUSEBUTTONUP` with `self.selected_piece is not None`:
compute the target square, build `chess.Move(self.selected_square,
target_square)` and, only if that move is in `self.board.legal_moves`, push
it and reset both selection fields; otherwise nothing changes.  (When
`selected_square` is `None`, `chess.Move(None, t)` equals no legal move, so
no push happens — the `none` branch below.)  Other events do nothing. -/
def handle_human_move {B : Type} (re : RulesEngine B) (g : GameState B) (e : Event) :
    GameState B :=
  match e with
  | Event.mouseDown pos =>
    let square := squareFromPixel pos
    match re.piece_at g.board square with
    | some piece =>
      if piece.color = human_player then
        { g with selected_piece := some piece, selected_square := some square }
      else g
    | none => g
  | Event.mouseUp pos =>
    if g.selected_piece.isSome then
      let target_square := squareFromPixel pos
      match g.selected_square with
      | some sel =>
        if (sel, target_square) ∈ re.legal_moves g.board then
          { board := re.push g.board (sel, target_square),
            selected_piece := none, selected_square := none }
        else g
      | none => g
    else g
  | _ => g

/-- `handle_computer_move` (lines 190-195): ask the engine for a move on the
current board and push it.  The engine is abstract: `engineMove`. -/
def handle_computer_move {B : Type} (re : RulesEngine B) (engineMove : B → Int × Int)
    (g : GameState B) : GameState B :=
  { g with board := re.push g.board (engineMove g.board) }

/-- `get_result` (lines 106-129): an if/elif chain over the board predicates,
first match wins; on checkmate the message depends on whether the side to
move is the human player. -/
def get_result {B : Type} (re : RulesEngine B) (hp : Bool) (b : B) : String :=
  if re.is_checkmate b then
    if re.turn b = hp then "You lost" else "You won"
  else if re.is_stalemate b then "It's a stalemate"
  else if re.is_insufficient_material b then "It's a draw due to insufficient material"
  else if re.is_seventyfive_moves b then "It's a draw due to the 75-move rule"
  else if re.is_fivefold_repetition b then "It's a draw due to the fivefold repetition rule"
  else if re.can_claim_draw b then "It's a draw by claim"
  else "Unknown result"

/-- The spec's `GameOutcome` enumeration (spec section 3). -/
inductive GameOutcome where
  | InProgress
  | HumanWin
  | OpponentWin
  | Stalemate
  | DrawInsufficientMaterial
  | Draw75Move
  | DrawFivefoldRepetition
  | DrawClaimable
  | Unknown
  deriving DecidableEq, Repr

/-- The outcome classifier as the spec states it (section 4.4): checks in the
fixed order checkmate, stalemate, insufficient material, seventy-five-move
rule, fivefold repetition, claimable draw, with a defensive `Unknown`
fallback; on checkmate the winner is the side NOT to move, mapped to
`HumanWin`/`OpponentWin` by comparing the mated side (the side to move)
against the human's color. -/
def spec_outcome {B : Type} (re : RulesEngine B) (humanColor : Bool) (b : B) : GameOutcome :=
  if re.is_checkmate b then
    if re.turn b = humanColor then GameOutcome.OpponentWin else GameOutcome.HumanWin
  else if re.is_stalemate b then GameOutcome.Stalemate
  else if re.is_insufficient_material b then GameOutcome.DrawInsufficientMaterial
  else if re.is_seventyfive_moves b then GameOutcome.Draw75Move
  else if re.is_fivefold_repetition b then GameOutcome.DrawFivefoldRepetition
  else if re.can_claim_draw b then GameOutcome.DrawClaimable
  else GameOutcome.Unknown

/-- The message `get_result` prints for each outcome (`InProgress` is never
produced by the classifier, which runs only at game over). -/
def outcome_message : GameOutcome → String
  | GameOutcome.InProgress => ""
  | GameOutcome.HumanWin => "You won"
  | GameOutcome.OpponentWin => "You lost"
  | GameOutcome.Stalemate => "It's a stalemate"
  | GameOutcome.DrawInsufficientMaterial => "It's a draw due to insufficient material"
  | GameOutcome.Draw75Move => "It's a draw due to the 75-move rule"
  | GameOutcome.DrawFivefoldRepetition => "It's a draw due to the fivefold repetition rule"
  | GameOutcome.DrawClaimable => "It's a draw by claim"
  | GameOutcome.Unknown => "Unknown result"

/-- The to-squares highlighted by `draw_possible_moves` (lines 71-79): when
`self.selected_piece is not None`, one circle per legal move whose
`from_square` equals `self.selected_square` (an `int == None` comparison is
`False` in Python, hence the `Option` equality). -/
def possibleDestinations {B : Type} (re : RulesEngine B) (g : GameState B) : List Int :=
  if g.selected_piece.isSome then
    ((re.legal_moves g.board).filter (fun m => decide (some m.1 = g.selected_square))).map
      Prod.snd
  else []

/-- The state of the `play` loop (lines 81-104): the game state plus the
`running` flag. -/
structure LoopState (Board : Type) where
  gs : GameState Board
  running : Bool
  deriving DecidableEq

/-- One event of the `for event in pygame.event.get()` loop (lines 97-101):
`QUIT` clears `running`; otherwise, if the side to move is the human player,
the event goes to `handle_human_move`. -/
def process_event {B : Type} (re : RulesEngine B) (ls : LoopState B) (e : Event) :
    LoopState B :=
  match e with
  | Event.quit => { ls with running := false }
  | _ =>
    if re.turn ls.gs.board = human_player then
      { ls with gs := handle_human_move re ls.gs e }
    else ls

/-- The whole event loop of one frame: fold `process_event` over the polled
events. -/
def process_events {B : Type} (re : RulesEngine B) (ls : LoopState B)
    (events : List Event) : LoopState B :=
  events.foldl (process_event re) ls

/-- Lines 92-95 of `play`: if the game is over, `running = False` (the
printed `get_result` is a side effect not modelled). -/
def check_game_over {B : Type} (re : RulesEngine B) (ls : LoopState B) : LoopState B :=
  if re.is_game_over ls.gs.board then { ls with running := false } else ls

/-- Lines 103-104 of `play`: if still running and the side to move is the
computer player, the engine moves. -/
def computer_turn_step {B : Type} (re : RulesEngine B) (engineMove : B → Int × Int)
    (ls : LoopState B) : LoopState B :=
  if ls.running = true ∧ re.turn ls.gs.board = computer_player then
    { ls with gs := handle_computer_move re engineMove ls.gs }
  else ls

/-- One iteration of the `while running` loop of `play` (lines 86-104),
rendering omitted: the game-over check, then the polled events, then the
computer's turn. -/
def frame {B : Type} (re : RulesEngine B) (engineMove : B → Int × Int)
    (events : List Event) (ls : LoopState B) : LoopState B :=
  computer_turn_step re engineMove (process_events re (check_game_over re ls) events)

/-- The `while running` loop itself over a schedule of per-frame event
lists: a frame runs only while `running` holds. -/
def play_frames {B : Type} (re : RulesEngine B) (engineMove : B → Int × Int) :
    List (List Event) → LoopState B → LoopState B
  | [], ls => ls
  | evs :: rest, ls =>
    if ls.running then play_frames re engineMove rest (frame re engineMove evs ls) else ls

/-- The state right after `__init__` (lines 11, 22, 23): some initial board,
both selection fields `None`, loop about to run. -/
def initial_state {B : Type} (b0 : B) : LoopState B :=
  { gs := { board := b0, selected_piece := none, selected_square := none }, running := true }

/-- The loop states the `play` loop can reach from the initial state. -/
inductive Reachable {B : Type} (re : RulesEngine B) (engineMove : B → Int × Int) (b0 : B) :
    LoopState B → Prop
  | init : Reachable re engineMove b0 (initial_state b0)
  | frame_step (events : List Event) {ls : LoopState B} :
      Reachable re engineMove b0 ls → ls.running = true →
      Reachable re engineMove b0 (frame re engineMove events ls)

/-- The coupled selection invariant: either both selection fields are `None`,
or both are set, the selected piece has the human's color and the human is
the side to move. -/
def SelectionInv {B : Type} (re : RulesEngine B) (gs : GameState B) : Prop :=
  (gs.selected_piece = none ∧ gs.selected_square = none) ∨
  (∃ p s, gs.selected_piece = some p ∧ gs.selected_square = some s ∧
    p.color = human_player ∧ re.turn gs.board = human_player)

/-- A small concrete Rules Engine over `Board := Nat`, used to evaluate the
embedded program on concrete inputs: the side to move is White (the human)
on even boards, a white pawn stands on square 0 and a white knight on
square 8, board 0 has the single legal move (0, 16), and board 4 is a
finished (checkmate) position. -/
def demoRules : RulesEngine Nat where
  piece_at := fun _ sq =>
    if sq = 0 then some { pieceType := 1, color := true }
    else if sq = 8 then some { pieceType := 2, color := true }
    else none
  legal_moves := fun b => if b = 0 then [((0 : Int), (16 : Int))] else []
  push := fun b _ => b + 1
  turn := fun b => decide (b % 2 = 0)
  is_game_over := fun b => decide (b = 4)
  is_checkmate := fun b => decide (b = 4)
  is_stalemate := fun _ => false
  is_insufficient_material := fun _ => false
  is_seventyfive_moves := fun _ => false
  is_fivefold_repetition := fun _ => false
  can_claim_draw := fun _ => false

/-- A concrete opponent-engine stub for evaluating the loop on concrete
inputs. -/
def demoEngineMove : Nat → Int × Int := fun _ => ((8 : Int), (24 : Int))

/-- The per-square pixel size evaluates to 80. -/
theorem square_size_eq : square_size = 80 := by decide

/-- C7: for every square s in [0,63], mapping s to its pixel origin
(`draw_board`) and that pixel back through the pointer-to-square computation
of `handle_human_move` yields s again. -/
theorem pixel_square_round_trip (s : Int) (h0 : 0 ≤ s) (h1 : s < 64) :
    squareFromPixel (pixelOriginOfSquare s) = s := by
  simp only [squareFromPixel, pixelOriginOfSquare, chess_square, square_size_eq,
    Int.fdiv_eq_ediv _ (by norm_num : (0 : Int) ≤ 80),
    Int.fdiv_eq_ediv _ (by norm_num : (0 : Int) ≤ 8),
    Int.fmod_eq_emod _ (by norm_num : (0 : Int) ≤ 8)]
  omega

/-- Witness for C7 at the concrete square 27. -/
theorem pixel_square_round_trip_witness :
    (0 ≤ (27 : Int) ∧ (27 : Int) < 64) ∧ squareFromPixel (pixelOriginOfSquare 27) = 27 :=
  ⟨⟨by decide, by decide⟩, pixel_square_round_trip 27 (by decide) (by decide)⟩

/-- C8 counterexample: the pixel (640, 0) lies outside the board extent
(x = board_size), and the mapping does NOT clamp it to the nearest edge
square: it computes square 64, which is not a defined square in [0,63]. -/
theorem squareFromPixel_no_clamp_cex :
    squareFromPixel (board_size, 0) = 64 ∧ ¬ squareFromPixel (board_size, 0) < 64 := by
  constructor
  · decide
  · decide

/-- C8 amended: the mapping does not clamp out-of-bounds pixels (coordinates
beyond the board extent can map outside [0,63], see the counterexample);
only for pixels inside the board's pixel bounds is the computed square
always a defined square in [0,63]. -/
theorem squareFromPixel_in_bounds (x y : Int)
    (hx0 : 0 ≤ x) (hx1 : x < board_size) (hy0 : 0 ≤ y) (hy1 : y < board_size) :
    0 ≤ squareFromPixel (x, y) ∧ squareFromPixel (x, y) < 64 := by
  simp only [board_size] at hx1 hy1
  simp only [squareFromPixel, chess_square, square_size_eq,
    Int.fdiv_eq_ediv _ (by norm_num : (0 : Int) ≤ 80)]
  omega

/-- Witness for C8 amended at the concrete in-bounds pixel (639, 0). -/
theorem squareFromPixel_in_bounds_witness :
    (0 ≤ (639 : Int) ∧ (639 : Int) < board_size ∧ 0 ≤ (0 : Int) ∧ (0 : Int) < board_size) ∧
      (0 ≤ squareFromPixel (639, 0) ∧ squareFromPixel (639, 0) < 64) :=
  ⟨⟨by decide, by decide, by decide, by decide⟩,
    squareFromPixel_in_bounds 639 0 (by decide) (by decide) (by decide) (by decide)⟩

/-- C2: `get_result` is exactly the spec's outcome classifier rendered as a
message: it checks checkmate, stalemate, insufficient material,
seventy-five-move rule, fivefold repetition, claimable draw in that fixed
order with an Unknown fallback, first match winning, and on checkmate the
winner is the side NOT to move (the human wins exactly when the side to
move differs from the human's color). -/
theorem get_result_refines_spec_outcome {B : Type} (re : RulesEngine B) (hp : Bool) (b : B) :
    get_result re hp b = outcome_message (spec_outcome re hp b) := by
  unfold get_result spec_outcome
  split_ifs <;> rfl

/-- C1: the selection state machine never applies a move outside the legal
set: for any state and any event, `handle_human_move` either leaves the
board unchanged or the new board is the push of a move that was in the
board's legal-move list at that moment. -/
theorem move_pushed_only_if_legal {B : Type} (re : RulesEngine B) (g : GameState B)
    (e : Event) :
    (handle_human_move re g e).board = g.board ∨
      ∃ m, m ∈ re.legal_moves g.board ∧
        (handle_human_move re g e).board = re.push g.board m := by
  cases e with
  | mouseDown pos =>
    simp only [handle_human_move]
    cases re.piece_at g.board (squareFromPixel pos) with
    | none => exact Or.inl (by first | rfl | trivial)
    | some piece =>
      by_cases hc : piece.color = human_player
      · simp only [hc, if_true]
        exact Or.inl (by first | rfl | trivial)
      · simp only [hc, if_false]
        exact Or.inl (by first | rfl | trivial)
  | mouseUp pos =>
    simp only [handle_human_move]
    by_cases hsel : g.selected_piece.isSome
    · simp only [hsel, if_true]
      cases hss : g.selected_square with
      | none => exact Or.inl (by first | rfl | trivial)
      | some sel =>
        by_cases hleg : (sel, squareFromPixel pos) ∈ re.legal_moves g.board
        · simp only [hleg, if_true]
          exact Or.inr ⟨(sel, squareFromPixel pos), hleg, rfl⟩
        · simp only [hleg, if_false]
          exact Or.inl (by first | rfl | trivial)
    · simp only [hsel, if_false]
      exact Or.inl (by first | rfl | trivial)
  | quit => exact Or.inl (by first | rfl | trivial)
  | other => exact Or.inl (by first | rfl | trivial)

/-- A concrete mid-gesture state on a board with no legal moves
(`demoRules.legal_moves 1 = []`): the human holds the pawn picked up from
square 0. -/
def stuck_state : GameState Nat :=
  { board := 1, selected_piece := some { pieceType := 1, color := true },
    selected_square := some 0 }

/-- C4 counterexample: releasing at pixel (0, 560) — square 0 — proposes the
candidate (0, 0), which is not legal; the handler leaves the state entirely
unchanged, so the selection is retained, NOT cleared to `None` as the claim
states. -/
theorem illegal_release_retains_selection_cex :
    ((0 : Int), (0 : Int)) ∉ demoRules.legal_moves stuck_state.board ∧
      handle_human_move demoRules stuck_state (Event.mouseUp (0, 560)) = stuck_state ∧
      stuck_state.selected_piece ≠ none ∧ stuck_state.selected_square ≠ none := by
  refine ⟨by decide, by decide, by decide, by decide⟩

/-- C4 amended: when a release proposes an illegal candidate move, no move is
applied and no move-applied signal is emitted, but the selection is NOT
cleared — the whole state (board and both selection fields) is left
unchanged, so the state machine stays in the piece-held state. -/
theorem illegal_release_leaves_state_unchanged {B : Type} (re : RulesEngine B)
    (g : GameState B) (pos : Int × Int) (s : Int)
    (hsel : g.selected_piece.isSome = true) (hss : g.selected_square = some s)
    (hleg : (s, squareFromPixel pos) ∉ re.legal_moves g.board) :
    handle_human_move re g (Event.mouseUp pos) = g := by
  simp only [handle_human_move, hsel, if_true, hss]
  rw [if_neg hleg]

/-- Witness for C4 amended at the concrete stuck state. -/
theorem illegal_release_leaves_state_unchanged_witness :
    handle_human_move demoRules stuck_state (Event.mouseUp (0, 560)) = stuck_state :=
  illegal_release_leaves_state_unchanged demoRules stuck_state (0, 560) 0
    (by decide) (by decide) (by decide)

/-- A concrete state in which the human already holds the pawn from square 0
on board 0. -/
def held_state : GameState Nat :=
  { board := 0, selected_piece := some { pieceType := 1, color := true },
    selected_square := some 0 }

/-- C5 counterexample: with a piece already held (selection on square 0), a
press at pixel (0, 480) — square 8, where a white knight stands — is NOT
ignored: it re-targets the selection to square 8. -/
theorem press_while_held_retargets_cex :
    held_state.selected_piece.isSome = true ∧
      held_state.selected_square = some 0 ∧
      (handle_human_move demoRules held_state (Event.mouseDown (0, 480))).selected_square
        = some 8 := by
  refine ⟨by decide, by decide, by decide⟩

/-- C5 amended: a press is handled identically whether or not a piece is
already held: if the pressed square holds a piece of the human's color the
selection is (re)targeted to that piece and square, and otherwise the state
is unchanged. -/
theorem press_retargets_selection {B : Type} (re : RulesEngine B) (g : GameState B)
    (pos : Int × Int) :
    ((∃ p, re.piece_at g.board (squareFromPixel pos) = some p ∧ p.color = human_player) →
      handle_human_move re g (Event.mouseDown pos) =
        { g with selected_piece := re.piece_at g.board (squareFromPixel pos),
                 selected_square := some (squareFromPixel pos) }) ∧
    ((∀ p, re.piece_at g.board (squareFromPixel pos) = some p → p.color ≠ human_player) →
      handle_human_move re g (Event.mouseDown pos) = g) := by
  constructor
  · rintro ⟨p, hp, hc⟩
    simp only [handle_human_move, hp, hc, if_true]
  · intro h
    simp only [handle_human_move]
    cases hpa : re.piece_at g.board (squareFromPixel pos) with
    | none => rfl
    | some p =>
      dsimp only
      rw [if_neg (h p hpa)]

/-- Witness for C5 amended: the press at pixel (0, 480) while holding the
pawn from square 0 re-targets the selection to the knight on square 8, and a
press at pixel (0, 400) — the empty square 16 — leaves the state
unchanged. -/
theorem press_retargets_selection_witness :
    (handle_human_move demoRules held_state (Event.mouseDown (0, 480)) =
      { held_state with
          selected_piece := demoRules.piece_at held_state.board (squareFromPixel (0, 480)),
          selected_square := some (squareFromPixel (0, 480)) }) ∧
    handle_human_move demoRules held_state (Event.mouseDown (0, 400)) = held_state :=
  ⟨(press_retargets_selection demoRules held_state (0, 480)).1
      ⟨{ pieceType := 2, color := true }, by decide, by decide⟩,
    (press_retargets_selection demoRules held_state (0, 400)).2
      (fun p hp => Option.noConfusion hp)⟩

/-- C6: the highlighted destinations are empty whenever no piece is selected
and, while a piece is held, are exactly the to-squares of the legal moves
whose from-square is the held square. -/
theorem possible_destinations_spec {B : Type} (re : RulesEngine B) (g : GameState B) :
    (g.selected_piece = none → possibleDestinations re g = []) ∧
    (∀ p s, g.selected_piece = some p → g.selected_square = some s →
      ∀ t, t ∈ possibleDestinations re g ↔ (s, t) ∈ re.legal_moves g.board) := by
  constructor
  · intro h
    simp [possibleDestinations, h]
  · intro p s hp hs t
    simp only [possibleDestinations, hp, Option.isSome_some, if_true, hs,
      List.mem_map, List.mem_filter, decide_eq_true_eq, Option.some_inj]
    constructor
    · rintro ⟨⟨a, c⟩, ⟨hm, h1⟩, h2⟩
      subst h1
      subst h2
      exact hm
    · intro hm
      exact ⟨(s, t), ⟨hm, rfl⟩, rfl⟩

/-- Witness for C6: with nothing selected no destination is highlighted, and
at the concrete held state 16 is highlighted exactly because (0, 16) is
legal. -/
theorem possible_destinations_spec_witness :
    possibleDestinations demoRules
        { board := (0 : Nat), selected_piece := none, selected_square := none } = [] ∧
      ((16 : Int) ∈ possibleDestinations demoRules held_state ↔
        ((0 : Int), (16 : Int)) ∈ demoRules.legal_moves held_state.board) :=
  ⟨(possible_destinations_spec demoRules
      { board := (0 : Nat), selected_piece := none, selected_square := none }).1 rfl,
    (possible_destinations_spec demoRules held_state).2
      { pieceType := 1, color := true } 0 (by decide) (by decide) 16⟩

/-- `handle_human_move` preserves the selection invariant when it runs on the
human's turn, which is the only way the event loop invokes it. -/
theorem handle_human_move_preserves_inv {B : Type} (re : RulesEngine B) (g : GameState B)
    (e : Event) (hinv : SelectionInv re g) (hturn : re.turn g.board = human_player) :
    SelectionInv re (handle_human_move re g e) := by
  cases e with
  | mouseDown pos =>
    simp only [handle_human_move]
    cases hpa : re.piece_at g.board (squareFromPixel pos) with
    | none => exact hinv
    | some p =>
      dsimp only
      by_cases hc : p.color = human_player
      · rw [if_pos hc]
        exact Or.inr ⟨p, squareFromPixel pos, rfl, rfl, hc, hturn⟩
      · rw [if_neg hc]
        exact hinv
  | mouseUp pos =>
    simp only [handle_human_move]
    cases hsp : g.selected_piece with
    | none =>
      simp only [Option.isSome_none, Bool.false_eq_true, if_false]
      exact hinv
    | some p =>
      simp only [Option.isSome_some, if_true]
      cases hss : g.selected_square with
      | none => exact hinv
      | some sel =>
        dsimp only
        by_cases hleg : (sel, squareFromPixel pos) ∈ re.legal_moves g.board
        · rw [if_pos hleg]
          exact Or.inl ⟨rfl, rfl⟩
        · rw [if_neg hleg]
          exact hinv
  | quit => exact hinv
  | other => exact hinv

/-- One pass of the event loop preserves the selection invariant. -/
theorem process_event_preserves_inv {B : Type} (re : RulesEngine B) (ls : LoopState B)
    (e : Event) (hinv : SelectionInv re ls.gs) :
    SelectionInv re (process_event re ls e).gs := by
  cases e
  case quit => exact hinv
  all_goals
    simp only [process_event]
    by_cases ht : re.turn ls.gs.board = human_player
  all_goals try rw [if_pos ht]
  all_goals try rw [if_neg ht]
  all_goals first
  | exact handle_human_move_preserves_inv re ls.gs _ hinv ht
  | exact hinv

/-- Folding the whole polled-event list preserves the selection invariant. -/
theorem process_events_preserves_inv {B : Type} (re : RulesEngine B) (events : List Event)
    (ls : LoopState B) (hinv : SelectionInv re ls.gs) :
    SelectionInv re (process_events re ls events).gs := by
  induction events generalizing ls with
  | nil => exact hinv
  | cons e rest ih => exact ih (process_event re ls e) (process_event_preserves_inv re ls e hinv)

/-- The game-over check does not touch the game state. -/
theorem check_game_over_gs {B : Type} (re : RulesEngine B) (ls : LoopState B) :
    (check_game_over re ls).gs = ls.gs := by
  unfold check_game_over
  split <;> rfl

/-- The computer's turn preserves the selection invariant: it only runs when
the side to move is the computer, in which case the invariant forces the
selection to be empty, and the engine's push does not touch the selection
fields. -/
theorem computer_turn_step_preserves_inv {B : Type} (re : RulesEngine B)
    (engineMove : B → Int × Int) (ls : LoopState B) (hinv : SelectionInv re ls.gs) :
    SelectionInv re (computer_turn_step re engineMove ls).gs := by
  unfold computer_turn_step
  by_cases hc : ls.running = true ∧ re.turn ls.gs.board = computer_player
  · rw [if_pos hc]
    rcases hinv with h | ⟨p, s, _, _, _, hturn⟩
    · exact Or.inl ⟨h.1, h.2⟩
    · rw [hturn] at hc
      exact absurd hc.2 (by decide)
  · rw [if_neg hc]
    exact hinv

/-- Every frame of the `play` loop preserves the selection invariant. -/
theorem frame_preserves_inv {B : Type} (re : RulesEngine B) (engineMove : B → Int × Int)
    (events : List Event) (ls : LoopState B) (hinv : SelectionInv re ls.gs) :
    SelectionInv re (frame re engineMove events ls).gs := by
  unfold frame
  refine computer_turn_step_preserves_inv re engineMove _ ?_
  refine process_events_preserves_inv re events _ ?_
  rw [check_game_over_gs]
  exact hinv

/-- The selection invariant holds in every reachable loop state. -/
theorem reachable_selection_inv {B : Type} (re : RulesEngine B) (engineMove : B → Int × Int)
    (b0 : B) (ls : LoopState B) (h : Reachable re engineMove b0 ls) :
    SelectionInv re ls.gs := by
  induction h with
  | init => exact Or.inl ⟨rfl, rfl⟩
  | frame_step events _ _ ih => exact frame_preserves_inv re engineMove events _ ih

/-- C3: in every reachable state of the interaction loop, either no selection
exists (both fields `None`) or the selection references a piece whose side
equals the side to move — a selection of the side not moving is never
retained, and the selection is cleared whenever the turn changes. -/
theorem selection_side_matches_turn {B : Type} (re : RulesEngine B)
    (engineMove : B → Int × Int) (b0 : B) (ls : LoopState B)
    (h : Reachable re engineMove b0 ls) :
    (ls.gs.selected_piece = none ∧ ls.gs.selected_square = none) ∨
      ∃ p, ls.gs.selected_piece = some p ∧ p.color = re.turn ls.gs.board := by
  rcases reachable_selection_inv re engineMove b0 ls h with h1 | ⟨p, s, hp, _, hcol, hturn⟩
  · exact Or.inl h1
  · exact Or.inr ⟨p, hp, by rw [hcol, hturn]⟩

/-- Witness for C3 at the initial state of the concrete demo game. -/
theorem selection_side_matches_turn_witness :
    ((initial_state (B := Nat) 0).gs.selected_piece = none ∧
        (initial_state (B := Nat) 0).gs.selected_square = none) ∨
      ∃ p, (initial_state (B := Nat) 0).gs.selected_piece = some p ∧
        p.color = demoRules.turn (initial_state (B := Nat) 0).gs.board :=
  selection_side_matches_turn demoRules demoEngineMove 0 (initial_state 0) Reachable.init

/-- C10: in every reachable state the two selection fields are synchronized:
they are both `None` or both set. -/
theorem selection_fields_synchronized {B : Type} (re : RulesEngine B)
    (engineMove : B → Int × Int) (b0 : B) (ls : LoopState B)
    (h : Reachable re engineMove b0 ls) :
    (ls.gs.selected_piece = none ∧ ls.gs.selected_square = none) ∨
      (ls.gs.selected_piece.isSome = true ∧ ls.gs.selected_square.isSome = true) := by
  rcases reachable_selection_inv re engineMove b0 ls h with h1 | ⟨p, s, hp, hs, _, _⟩
  · exact Or.inl h1
  · exact Or.inr ⟨by rw [hp]; rfl, by rw [hs]; rfl⟩

/-- Witness for C10 at the initial state of the concrete demo game. -/
theorem selection_fields_synchronized_witness :
    ((initial_state (B := Nat) 0).gs.selected_piece = none ∧
        (initial_state (B := Nat) 0).gs.selected_square = none) ∨
      ((initial_state (B := Nat) 0).gs.selected_piece.isSome = true ∧
        (initial_state (B := Nat) 0).gs.selected_square.isSome = true) :=
  selection_fields_synchronized demoRules demoEngineMove 0 (initial_state 0) Reachable.init

/-- One event-loop pass never turns a cleared `running` flag back on. -/
theorem process_event_keeps_stopped {B : Type} (re : RulesEngine B) (ls : LoopState B)
    (e : Event) (h : ls.running = false) : (process_event re ls e).running = false := by
  cases e
  case quit => rfl
  all_goals
    simp only [process_event]
    split
  all_goals exact h

/-- The whole event loop never turns a cleared `running` flag back on. -/
theorem process_events_keep_stopped {B : Type} (re : RulesEngine B) (events : List Event)
    (ls : LoopState B) (h : ls.running = false) :
    (process_events re ls events).running = false := by
  induction events generalizing ls with
  | nil => exact h
  | cons e rest ih => exact ih _ (process_event_keeps_stopped re ls e h)

/-- C9 amended: when game over is detected at the top of a frame, the
orchestrator clears the `running` flag, so no engine move is requested in
that frame — the frame reduces to plain event processing of the stopped
state — and the loop ends after that frame: a stopped loop processes no
further frames.  (Events polled in that same final frame ARE still routed,
see the counterexample.) -/
theorem game_over_stops_loop_after_current_frame {B : Type} (re : RulesEngine B)
    (engineMove : B → Int × Int) (events : List Event)
    (frame_lists : List (List Event)) (ls : LoopState B) :
    (re.is_game_over ls.gs.board = true →
      frame re engineMove events ls =
          process_events re { ls with running := false } events ∧
        (frame re engineMove events ls).running = false) ∧
    (ls.running = false → play_frames re engineMove frame_lists ls = ls) := by
  constructor
  · intro hgo
    have h1 : check_game_over re ls = { ls with running := false } := by
      unfold check_game_over
      rw [if_pos hgo]
    have h2 : (process_events re { ls with running := false } events).running = false :=
      process_events_keep_stopped re events _ rfl
    have heq : frame re engineMove events ls =
        process_events re { ls with running := false } events := by
      unfold frame computer_turn_step
      rw [h1, if_neg (fun hc => absurd (h2 ▸ hc.1) (by decide))]
    exact ⟨heq, heq ▸ h2⟩
  · intro hrun
    cases frame_lists with
    | nil => rfl
    | cons evs rest =>
      unfold play_frames
      rw [if_neg (by rw [hrun]; exact Bool.false_ne_true)]

/-- Witness for C9 amended: on the finished demo board 4 the frame with one
press event reduces to event processing with `running` cleared, and a
stopped loop state is unchanged by further frames. -/
theorem game_over_stops_loop_witness :
    (frame demoRules demoEngineMove [Event.mouseDown (0, 560)] (initial_state 4) =
        process_events demoRules { initial_state (B := Nat) 4 with running := false }
          [Event.mouseDown (0, 560)] ∧
      (frame demoRules demoEngineMove [Event.mouseDown (0, 560)]
          (initial_state 4)).running = false) ∧
    play_frames demoRules demoEngineMove [[Event.quit]]
        { initial_state (B := Nat) 0 with running := false } =
      { initial_state (B := Nat) 0 with running := false } :=
  ⟨(game_over_stops_loop_after_current_frame demoRules demoEngineMove
      [Event.mouseDown (0, 560)] [] (initial_state 4)).1 (by decide),
    (game_over_stops_loop_after_current_frame demoRules demoEngineMove
      [] [[Event.quit]] { initial_state (B := Nat) 0 with running := false }).2 rfl⟩

/-- C9 counterexample: board 4 is game over, yet the very frame that detects
this still routes the polled press event to the selection state machine —
the press at pixel (0, 560) (square 0) selects the white pawn, changing the
selection from `None`; so input IS processed after game over is detected. -/
theorem game_over_frame_still_routes_event_cex :
    demoRules.is_game_over (initial_state (B := Nat) 4).gs.board = true ∧
      (initial_state (B := Nat) 4).gs.selected_piece = none ∧
      (frame demoRules demoEngineMove [Event.mouseDown (0, 560)]
          (initial_state 4)).gs.selected_piece
        = some { pieceType := 1, color := true } := by
  refine ⟨by decide, by decide, by decide⟩
